import Mathlib

/-!
Verification of the generic finite-state-machine engine in
src/lib/util/machine.c (FreeRADIUS utility library).

The C code is shallowly embedded: machine ints become `Int`, NULL-able
pointers become `Option`, the trailing array of state instances becomes a
`List`, and the side-effecting callbacks (hook functions and the per-state
enter/exit/process callbacks) are abstracted by the data the engine itself
observes about them: presence flags for enter/exit, the returned next state
for process, and a numeric identity per hook.  Every operation additionally
returns the list of observable events (hook invocations, callback
invocations, reentrancy-guard writes, the reassignment of `current`) so that
ordering properties can be stated.

The macro `fr_assert` is defined in debug.h, which is not part of this
translation unit.  Following the specification's error-handling design
(contract violations are fatal in the reference design, while state/name
queries on a dead machine still succeed), asserts guarding contract
violations are modelled as fatal (the operation returns `none`), and the
dead-machine asserts on the two query functions are modelled as non-fatal
diagnostics.  Dereferences of NULL definitions that the C code would perform
are also modelled as `none`.
-/

namespace FrMachine

/-- Identity of the caller that sets the reentrancy guard.  In the C source
`in_handler` is a `void const *` holding the address of the calling function,
or, for `fr_machine_process`, of the current state instance. -/
inductive Handler where
  | transition
  | resume
  | machineFree
  | processing (idx : Nat)
deriving DecidableEq, Repr

/-- A registered hook (`fr_machine_hook_t`).  The C structure stores a
callback function pointer and an opaque context; that pair is abstracted by
the numeric identity `id`, since hook callbacks may not call back into the
engine. -/
structure Hook where
  id : Nat
  oneshot : Bool
deriving DecidableEq, Repr

/-- Observable events emitted while the engine runs. -/
inductive Ev where
  | setHandler (tok : Handler)
  | clearHandler
  | hookCall (id : Nat) (state1 state2 : Int)
  | exitCb (state : Int)
  | enterCb (state : Int)
  | processCb (state : Int)
  | swap (old target : Int)
deriving DecidableEq, Repr

/-- One row of the static state table (`fr_machine_state_t`).  The enter and
exit callbacks are side-effecting function pointers that may be NULL; they
are modelled by presence flags.  The process callback returns the next state
and is modelled by the value it returns when invoked. -/
structure StateDef where
  number : Int
  name : String
  enter : Bool
  exit : Bool
  process : Int
deriving DecidableEq, Repr

/-- Default row used to model reads of definition-table cells that no claim
depends on. -/
def defaultStateDef : StateDef := ⟨0, "", false, false, 0⟩

/-- Runtime record per state (`fr_machine_state_inst_t`): the pointer to the
static row plus six hook lists (enter/process/exit times pre/post).  `sdef`
models the C field `def` (a Lean keyword), NULL for the never-initialised
entry 0 of the state array, see `fr_machine_alloc`. -/
structure StateInst where
  sdef : Option StateDef
  enterPre : List Hook
  enterPost : List Hook
  processPre : List Hook
  processPost : List Hook
  exitPre : List Hook
  exitPost : List Hook
deriving DecidableEq, Repr

/-- A state instance as `talloc_zero_array` leaves it: all hook lists empty. -/
def emptyInst (d : Option StateDef) : StateInst := ⟨d, [], [], [], [], [], []⟩

/-- The static machine definition (`fr_machine_def_t`): the state table
indexed by state number (entry 0 unused), the maximum state number, the
initial state and the free state. -/
structure MachineDef where
  state : List StateDef
  max_state : Int
  init : Int
  free : Int
deriving DecidableEq, Repr

/-- The machine handle (`struct fr_machine_s`).  `current` is the index of
the current state instance (a NULL pointer is `none`); `state` is the
trailing array of instances, of length `max_state + 1`. -/
structure fr_machine_t where
  mdef : MachineDef
  current : Option Nat
  in_handler : Option Handler
  deferred : Int
  paused : Int
  dead : Bool
  state : List StateInst
deriving DecidableEq, Repr

/-- Read of `m->state[i]`. -/
def fr_machine_t.inst (m : fr_machine_t) (i : Nat) : StateInst :=
  m.state.getD i (emptyInst none)

/-- Iterate one hook list (`call_hook`): invoke each hook in list order,
capturing the successor before invoking, and free the hook afterwards when it
is one-shot (its destructor removes it from the list).  Returns the list as
it remains after the pass, together with the invocation events. -/
def call_hook (head : List Hook) (state1 state2 : Int) : List Hook × List Ev :=
  match head with
  | [] => ([], [])
  | hook :: rest =>
    let r := call_hook rest state1 state2
    (if hook.oneshot then r.1 else hook :: r.1,
     Ev.hookCall hook.id state1 state2 :: r.2)

/-- Core transition (`state_transition`): exit the current state, reassign
`current`, enter the target state, with the reentrancy guard held throughout.
The C function asserts that a state is current, that no transition is
deferred and that the guard is clear; per the specification such contract
violations are fatal, so they are modelled as `none`, as are the NULL
dereferences the C code performs when a state instance has no definition. -/
def state_transition (m : fr_machine_t) (state : Int) (in_handler : Handler) :
    Option (fr_machine_t × List Ev) :=
  match m.current with
  | none => none
  | some c =>
    if m.deferred ≠ 0 ∨ m.in_handler ≠ none then none
    else
      match (m.inst c).sdef with
      | none => none
      | some curDef =>
        let old := curDef.number
        let ex1 := call_hook (m.inst c).exitPre old state
        let exEv := if curDef.exit then [Ev.exitCb old] else []
        let ex2 := call_hook (m.inst c).exitPost old state
        let m1 : fr_machine_t :=
          { m with in_handler := some in_handler,
                   state := m.state.set c
                     { m.inst c with exitPre := ex1.1, exitPost := ex2.1 },
                   current := some state.toNat }
        match (m1.inst state.toNat).sdef with
        | none => none
        | some tgtDef =>
          let en1 := call_hook (m1.inst state.toNat).enterPre old state
          let enEv := if tgtDef.enter then [Ev.enterCb state] else []
          let en2 := call_hook (m1.inst state.toNat).enterPost old state
          let m2 : fr_machine_t :=
            { m1 with state := m1.state.set state.toNat
                        { m1.inst state.toNat with
                            enterPre := en1.1, enterPost := en2.1 },
                      in_handler := none }
          some (m2, Ev.setHandler in_handler ::
            (ex1.2 ++ exEv ++ ex2.2 ++ [Ev.swap old state]
              ++ en1.2 ++ enEv ++ en2.2) ++ [Ev.clearHandler])

/-- Public transition entry point (`fr_machine_transition`).  Returns the C
return code together with the machine and the emitted events; `none` models a
fatal assertion (reentrancy, double-deferral) or a NULL dereference. -/
def fr_machine_transition (m : fr_machine_t) (state : Int) :
    Option (Int × fr_machine_t × List Ev) :=
  if m.dead then some (-1, m, [])
  else if state < 0 ∨ state > m.mdef.max_state then some (-1, m, [])
  else
    match m.current with
    | none => some (-1, m, [])
    | some c =>
      match (m.inst c).sdef with
      | none => none
      | some curDef =>
        if curDef.number = state then some (0, m, [])
        else if m.in_handler ≠ none then none
        else if m.paused ≠ 0 then
          if m.deferred ≠ 0 then none
          else some (0, { m with deferred := state }, [])
        else
          (state_transition m state Handler.transition).map
            (fun p => (0, p.1, p.2))

/-- Destructor (`_machine_free`), run at release: transition into the free
state (its process callback is never invoked). -/
def _machine_free (m : fr_machine_t) : Option (fr_machine_t × List Ev) :=
  state_transition m m.mdef.free Handler.machineFree

/-- Drive the machine (`fr_machine_process`): run the process-phase hooks and
the current state's process callback under the reentrancy guard, then act on
the returned next state.  The C function asserts a current state, no pending
deferral, not dead and not paused; these contract violations are modelled as
`none`. -/
def fr_machine_process (m : fr_machine_t) : Option (Int × fr_machine_t × List Ev) :=
  match m.current with
  | none => none
  | some c =>
    if m.deferred ≠ 0 ∨ m.dead = true ∨ m.paused ≠ 0 then none
    else
      match (m.inst c).sdef with
      | none => none
      | some curDef =>
        let old := curDef.number
        let p1 := call_hook (m.inst c).processPre old old
        let p2 := call_hook (m.inst c).processPost old old
        let m1 : fr_machine_t :=
          { m with state := m.state.set c
                     { m.inst c with processPre := p1.1, processPost := p2.1 },
                   in_handler := none }
        let evs := Ev.setHandler (Handler.processing c) ::
          (p1.2 ++ [Ev.processCb old] ++ p2.2) ++ [Ev.clearHandler]
        let next := curDef.process
        if next = 0 then some (0, m1, evs)
        else if next = m.mdef.free then some (-1, { m1 with dead := true }, evs)
        else (fr_machine_transition m1 next).map
          (fun p => (next, p.2.1, evs ++ p.2.2))

/-- Allocate (`fr_machine_alloc`).  `talloc_zero_array` yields
`max_state + 1` zeroed instances and the initialisation loop then fills in
entries `1 .. max_state` only, so entry 0 keeps a NULL definition.  The init
state must have no enter/exit callback and its process callback runs once,
directly (no hooks can exist yet); a nonzero result triggers a normal
transition. -/
def fr_machine_alloc (mdef : MachineDef) : Option (fr_machine_t × List Ev) :=
  let insts := (List.range (mdef.max_state.toNat + 1)).map
    (fun i => if i = 0 then emptyInst none
              else emptyInst (some (mdef.state.getD i defaultStateDef)))
  let m : fr_machine_t := ⟨mdef, some mdef.init.toNat, none, 0, 0, false, insts⟩
  match (m.inst mdef.init.toNat).sdef with
  | none => none
  | some d =>
    if d.enter ∨ d.exit then none
    else
      let next := d.process
      if next < 0 then none
      else if next = 0 then some (m, [Ev.processCb d.number])
      else (fr_machine_transition m next).map
        (fun p => (p.2.1, Ev.processCb d.number :: p.2.2))

/-- Current state query (`fr_machine_current`).  The dead-machine assertion
here is a diagnostic: the specification states that state queries still
succeed on a dead machine, so it is modelled as non-fatal.  `none` models the
NULL dereference when the current instance has no definition. -/
def fr_machine_current (m : fr_machine_t) : Option Int :=
  match m.current with
  | none => some 0
  | some c =>
    match (m.inst c).sdef with
    | none => none
    | some d => some d.number

/-- Name query (`fr_machine_state_name`), with the same non-fatal treatment
of the dead-machine assertion.  Argument 0 is resolved through `current`
first and only then through the deferred slot. -/
def fr_machine_state_name (m : fr_machine_t) (state : Int) : Option String :=
  if state < 0 ∨ state > m.mdef.max_state then some "???"
  else if state = 0 then
    match m.current with
    | some c =>
      match (m.inst c).sdef with
      | none => none
      | some d => some (m.mdef.state.getD d.number.toNat defaultStateDef).name
    | none =>
      if m.deferred ≠ 0 then
        some (m.mdef.state.getD m.deferred.toNat defaultStateDef).name
      else some "???"
  else some (m.mdef.state.getD state.toNat defaultStateDef).name

/-- Hook phase selector (`fr_machine_hook_type_t`).  A C enum is not range
checked, so a fourth constructor models every value outside the three named
ones (the switch's default branch). -/
inductive fr_machine_hook_type_t where
  | FR_MACHINE_ENTER
  | FR_MACHINE_PROCESS
  | FR_MACHINE_EXIT
  | invalid
deriving DecidableEq, Repr

/-- Hook sense (`fr_machine_hook_sense_t`): PRE = 0, POST = 1. -/
inductive Sense where
  | pre
  | post
deriving DecidableEq, Repr

/-- The hook list of a state instance selected by (phase, sense), i.e. the
`head` pointer `fr_machine_hook` computes. -/
def StateInst.getList (st : StateInst) (type : fr_machine_hook_type_t)
    (sense : Sense) : List Hook :=
  match type, sense with
  | .FR_MACHINE_ENTER, .pre => st.enterPre
  | .FR_MACHINE_ENTER, .post => st.enterPost
  | .FR_MACHINE_PROCESS, .pre => st.processPre
  | .FR_MACHINE_PROCESS, .post => st.processPost
  | .FR_MACHINE_EXIT, .pre => st.exitPre
  | .FR_MACHINE_EXIT, .post => st.exitPost
  | .invalid, _ => []

/-- Replace the hook list of a state instance selected by (phase, sense). -/
def StateInst.setList (st : StateInst) (type : fr_machine_hook_type_t)
    (sense : Sense) (l : List Hook) : StateInst :=
  match type, sense with
  | .FR_MACHINE_ENTER, .pre => { st with enterPre := l }
  | .FR_MACHINE_ENTER, .post => { st with enterPost := l }
  | .FR_MACHINE_PROCESS, .pre => { st with processPre := l }
  | .FR_MACHINE_PROCESS, .post => { st with processPost := l }
  | .FR_MACHINE_EXIT, .pre => { st with exitPre := l }
  | .FR_MACHINE_EXIT, .post => { st with exitPost := l }
  | .invalid, _ => st

/-- Register a hook (`fr_machine_hook`): append it at the tail of the
selected list (`fr_dlist_insert_tail`) and return it as the handle.  An
invalid phase selector returns NULL (`some (none, m)`) leaving the machine
untouched.  The dead-machine assertion guards a caller contract violation
(per the specification the only valid operation on a dead machine besides the
queries is release), so it is modelled as fatal; the C code itself has no
failure-return path for it. -/
def fr_machine_hook (m : fr_machine_t) (state_to_hook : Int)
    (type : fr_machine_hook_type_t) (sense : Sense) (oneshot : Bool)
    (id : Nat) : Option (Option Nat × fr_machine_t) :=
  if m.dead then none
  else
    match type with
    | .invalid => some (none, m)
    | _ =>
      let st := m.inst state_to_hook.toNat
      let st' := st.setList type sense (st.getList type sense ++ [⟨id, oneshot⟩])
      some (some id, { m with state := m.state.set state_to_hook.toNat st' })

/-- Hook handle destructor (`_machine_hook_free`): remove the hook from the
list its back-pointer names.  The C removal is by node identity; it is
modelled as removing the hooks carrying the handle's id from the selected
list. -/
def _machine_hook_free (m : fr_machine_t) (stateIdx : Nat)
    (type : fr_machine_hook_type_t) (sense : Sense) (id : Nat) : fr_machine_t :=
  let st := m.inst stateIdx
  let st' := st.setList type sense
    ((st.getList type sense).filter (fun h => h.id ≠ id))
  { m with state := m.state.set stateIdx st' }

/-- Pause transitions (`fr_machine_pause`): increment the pause counter.  The
dead-machine assertion is modelled as fatal. -/
def fr_machine_pause (m : fr_machine_t) : Option fr_machine_t :=
  if m.dead then none else some { m with paused := m.paused + 1 }

/-- Resume transitions (`fr_machine_resume`): decrement the pause counter
when it is positive, and on reaching zero perform a pending deferred
transition after first clearing the deferred slot. -/
def fr_machine_resume (m : fr_machine_t) : Option (fr_machine_t × List Ev) :=
  if m.dead then none
  else
    let go : fr_machine_t → Option (fr_machine_t × List Ev) := fun m1 =>
      if m1.deferred = 0 then some (m1, [])
      else state_transition { m1 with deferred := 0 } m1.deferred Handler.resume
    if m.paused > 0 then
      let m1 : fr_machine_t := { m with paused := m.paused - 1 }
      if m1.paused > 0 then some (m1, []) else go m1
    else go m


/-! Concrete machines used by the witnesses and counterexamples.  The state
table mirrors the specification's concrete scenario: state 1 "idle" (process
returns 2), state 2 "active" (enter and exit callbacks present, process
returns 0), state 3 the free state. -/

/-- State 1 of the example table. -/
def sdIdle : StateDef := ⟨1, "idle", false, false, 2⟩

/-- State 2 of the example table. -/
def sdActive : StateDef := ⟨2, "active", true, true, 0⟩

/-- State 3 (the free state) of the example table. -/
def sdDone : StateDef := ⟨3, "done", true, false, 0⟩

/-- Example machine definition: three states, init 1, free 3. -/
def exDef : MachineDef := ⟨[defaultStateDef, sdIdle, sdActive, sdDone], 3, 1, 3⟩

/-- Instance of state 2 carrying one hook on each of the six lists, with
hooks 2 and 6 one-shot. -/
def activeInst : StateInst :=
  ⟨some sdActive, [⟨1, false⟩], [⟨2, true⟩], [⟨3, false⟩], [⟨4, false⟩],
    [⟨5, false⟩], [⟨6, true⟩]⟩

/-- Example machine sitting in state 2 with hooks registered on it. -/
def exM : fr_machine_t :=
  ⟨exDef, some 2, none, 0, 0, false,
   [emptyInst none, emptyInst (some sdIdle), activeInst, emptyInst (some sdDone)]⟩

/-- The machine `exM` after transitioning to state 3 (one-shot exit-post
hook 6 has been consumed). -/
def exM3 : fr_machine_t :=
  ⟨exDef, some 3, none, 0, 0, false,
    [emptyInst none, emptyInst (some sdIdle),
     ⟨some sdActive, [⟨1, false⟩], [⟨2, true⟩], [⟨3, false⟩], [⟨4, false⟩],
       [⟨5, false⟩], []⟩,
     emptyInst (some sdDone)]⟩

/-- The events of the transition of `exM` to state 3. -/
def exEvs3 : List Ev :=
  [Ev.setHandler Handler.transition, Ev.hookCall 5 2 3, Ev.exitCb 2,
   Ev.hookCall 6 2 3, Ev.swap 2 3, Ev.enterCb 3, Ev.clearHandler]

/-- The machine after the process phase of `fr_machine_process` on state `c`:
the one-shot process hooks of both senses have been consumed and the
reentrancy guard is clear again. -/
def processPhaseMachine (m : fr_machine_t) (c : Nat) : fr_machine_t :=
  { m with
      state := m.state.set c
        { m.inst c with
            processPre := (m.inst c).processPre.filter (fun h => !h.oneshot),
            processPost := (m.inst c).processPost.filter (fun h => !h.oneshot) },
      in_handler := none }

/-- The events of the process phase of `fr_machine_process` on state `c` with
current state number `old`: guard set, process-pre hooks in registration
order, the process callback, process-post hooks, guard cleared. -/
def processPhaseEvs (m : fr_machine_t) (c : Nat) (old : Int) : List Ev :=
  Ev.setHandler (Handler.processing c) ::
    ((m.inst c).processPre.map (fun h => Ev.hookCall h.id old old)
      ++ [Ev.processCb old]
      ++ (m.inst c).processPost.map (fun h => Ev.hookCall h.id old old))
    ++ [Ev.clearHandler]

/-- Quit state used to exercise the shutdown branch: its process callback
returns the free state 3. -/
def sdQuit : StateDef := ⟨2, "quit", false, false, 3⟩

/-- Machine definition with the quit state at index 2. -/
def exDefQ : MachineDef := ⟨[defaultStateDef, sdIdle, sdQuit, sdDone], 3, 1, 3⟩

/-- Machine sitting in the quit state. -/
def exMQ : fr_machine_t :=
  ⟨exDefQ, some 2, none, 0, 0, false,
   [emptyInst none, emptyInst (some sdIdle), emptyInst (some sdQuit),
    emptyInst (some sdDone)]⟩

/-- Machine of the example table sitting in state 1, whose process callback
returns 2. -/
def exMIdle : fr_machine_t := { exM with current := some 1 }


/-- The example machine with a transition to state 1 deferred (pause depth 1)
while state 2 is still current. -/
def exMDeferred : fr_machine_t := { exM with paused := 1, deferred := 1 }

/-- The machine `fr_machine_alloc` builds from `exDef`: the init state's
process callback returned 2, so the machine sits in state 2; entry 0 of the
instance array keeps a NULL definition. -/
def exM0 : fr_machine_t :=
  ⟨exDef, some 2, none, 0, 0, false,
   [emptyInst none, emptyInst (some sdIdle), emptyInst (some sdActive),
    emptyInst (some sdDone)]⟩

/-! Helper lemmas about list reads, writes and `call_hook`. -/

theorem getD_set_self {α : Type} (l : List α) (i : Nat) (x d : α)
    (h : i < l.length) : (l.set i x).getD i d = x := by
  induction l generalizing i with
  | nil => simp at h
  | cons a t ih =>
    cases i with
    | zero => rfl
    | succ n =>
      simpa [List.set, List.getD] using ih n (by simpa using h)

theorem getD_set_ne {α : Type} (l : List α) (i j : Nat) (x d : α)
    (h : i ≠ j) : (l.set i x).getD j d = l.getD j d := by
  induction l generalizing i j with
  | nil => rfl
  | cons a t ih =>
    cases i with
    | zero =>
      cases j with
      | zero => exact absurd rfl h
      | succ n => rfl
    | succ n =>
      cases j with
      | zero => rfl
      | succ k =>
        simpa [List.set, List.getD] using ih n k (by omega)

theorem call_hook_snd (l : List Hook) (s1 s2 : Int) :
    (call_hook l s1 s2).2 = l.map (fun h => Ev.hookCall h.id s1 s2) := by
  induction l with
  | nil => rfl
  | cons h t ih => simp [call_hook, ih]

theorem call_hook_fst (l : List Hook) (s1 s2 : Int) :
    (call_hook l s1 s2).1 = l.filter (fun h => !h.oneshot) := by
  induction l with
  | nil => rfl
  | cons h t ih =>
    by_cases ho : h.oneshot <;> simp [call_hook, ih, List.filter, ho]

/-- Sanity evaluation: the example machine's transition to state 3 computes
the expected machine and event trace. -/
theorem exM_transition_eval :
    fr_machine_transition exM 3 = some (0, exM3, exEvs3) := by decide

/-- How `inst` reads through a write to the instance array. -/
theorem inst_set_eq (l : List StateInst) (c j : Nat) (X : StateInst)
    (hc : c < l.length) :
    (l.set c X).getD j (emptyInst none) =
      if j = c then X else l.getD j (emptyInst none) := by
  by_cases h : j = c
  · subst h; rw [if_pos rfl, getD_set_self _ _ _ _ hc]
  · rw [if_neg h, getD_set_ne _ _ _ _ _ (fun hh => h hh.symm)]

/-- C1: every transition performed by the engine follows the fixed total
order: the reentrancy guard is set to the caller's identity first; then the
current state's exit-pre hooks fire in registration (list) order, then its
exit callback if present, then its exit-post hooks; then `current` is
reassigned to the target's instance; then the target's enter-pre hooks, its
enter callback if present, and its enter-post hooks; the guard is cleared
only after the last of these.  The last three conjuncts show that the three
engine paths that change state — `fr_machine_transition`, `fr_machine_resume`
and release (`_machine_free`) — each perform exactly this sequence with their
own identity as the guard value. -/
theorem C1_transition_sequence (m : fr_machine_t) (s : Int) (tok : Handler)
    (c : Nat) (curDef tgtDef : StateDef)
    (hcur : m.current = some c)
    (hcd : (m.inst c).sdef = some curDef)
    (htd : (m.inst s.toNat).sdef = some tgtDef)
    (hdf : m.deferred = 0) (hih : m.in_handler = none)
    (hlen : c < m.state.length) :
    (∃ m', state_transition m s tok = some (m',
        Ev.setHandler tok ::
        ((m.inst c).exitPre.map (fun h => Ev.hookCall h.id curDef.number s)
          ++ (if curDef.exit then [Ev.exitCb curDef.number] else [])
          ++ (m.inst c).exitPost.map (fun h => Ev.hookCall h.id curDef.number s)
          ++ [Ev.swap curDef.number s]
          ++ (m.inst s.toNat).enterPre.map (fun h => Ev.hookCall h.id curDef.number s)
          ++ (if tgtDef.enter then [Ev.enterCb s] else [])
          ++ (m.inst s.toNat).enterPost.map (fun h => Ev.hookCall h.id curDef.number s))
        ++ [Ev.clearHandler]) ∧
      m'.current = some s.toNat ∧ m'.in_handler = none) ∧
    (m.dead = false → ¬(s < 0 ∨ s > m.mdef.max_state) → curDef.number ≠ s →
      m.paused = 0 →
      fr_machine_transition m s =
        (state_transition m s Handler.transition).map (fun p => (0, p.1, p.2))) ∧
    (m.dead = false → s ≠ 0 →
      fr_machine_resume { m with paused := 1, deferred := s } =
        state_transition { m with paused := 0 } s Handler.resume) ∧
    _machine_free m = state_transition m m.mdef.free Handler.machineFree := by
  refine ⟨?_, ?_, ?_, rfl⟩
  · simp only [state_transition, hcur, hcd, hdf, hih]
    simp only [ne_eq, not_true_eq_false, or_self, if_false, reduceCtorEq,
      not_false_eq_true, fr_machine_t.inst]
    rw [inst_set_eq _ _ _ _ hlen]
    by_cases hsc : s.toNat = c
    · rw [hsc] at htd ⊢
      simp only [fr_machine_t.inst] at hcd htd
      rw [hcd] at htd
      injection htd with htd'
      subst htd'
      simp [call_hook_snd, fr_machine_t.inst]
    · simp only [if_neg hsc]
      simp only [fr_machine_t.inst] at htd
      rw [htd]
      simp [call_hook_snd, fr_machine_t.inst]
  · intro hdead hrange hns hpaused
    simp only [fr_machine_transition, hdead, if_false, if_neg hrange, hcur,
      hcd, if_neg hns, hih, hpaused]
    simp
  · intro hdead hs
    obtain ⟨md, cur, ih, df, pz, dd, st⟩ := m
    simp only at hdf hih hdead
    subst hdf; subst hih; subst hdead
    simp [fr_machine_resume, hs]

/-- Witness for C1: the fixed sequence at the example machine, transitioning
from state 2 to state 3. -/
theorem C1_transition_sequence_witness :
    ∃ m', state_transition exM 3 Handler.transition = some (m',
      Ev.setHandler Handler.transition ::
      ((exM.inst 2).exitPre.map (fun h => Ev.hookCall h.id sdActive.number 3)
        ++ (if sdActive.exit then [Ev.exitCb sdActive.number] else [])
        ++ (exM.inst 2).exitPost.map (fun h => Ev.hookCall h.id sdActive.number 3)
        ++ [Ev.swap sdActive.number 3]
        ++ (exM.inst (3 : Int).toNat).enterPre.map
             (fun h => Ev.hookCall h.id sdActive.number 3)
        ++ (if sdDone.enter then [Ev.enterCb 3] else [])
        ++ (exM.inst (3 : Int).toNat).enterPost.map
             (fun h => Ev.hookCall h.id sdActive.number 3))
      ++ [Ev.clearHandler]) ∧
      m'.current = some (3 : Int).toNat ∧ m'.in_handler = none :=
  (C1_transition_sequence exM 3 Handler.transition 2 sdActive sdDone rfl rfl rfl
    rfl rfl (by decide)).1

/-- C3: `fr_machine_transition` fails with a -1 result exactly when the
machine is dead or the target is outside `0 .. max_state`; the dead check is
applied first, both checks precede every other rule, and on such a failure
the machine is returned unchanged with no hook or callback event. -/
theorem C3_transition_failure (m : fr_machine_t) (s : Int) (c : Nat)
    (hcur : m.current = some c) :
    ((m.dead = true ∨ s < 0 ∨ s > m.mdef.max_state) →
      fr_machine_transition m s = some (-1, m, [])) ∧
    (∀ rc m' evs, fr_machine_transition m s = some (rc, m', evs) →
      (rc = -1 ↔ (m.dead = true ∨ s < 0 ∨ s > m.mdef.max_state))) := by
  constructor
  · intro h
    by_cases hd : m.dead
    · simp [fr_machine_transition, hd]
    · have hr : s < 0 ∨ s > m.mdef.max_state := by
        rcases h with h | h
        · exact absurd h hd
        · exact h
      simp [fr_machine_transition, hd, hr]
  · intro rc m' evs heq
    unfold fr_machine_transition at heq
    by_cases hd : m.dead = true
    · rw [if_pos hd] at heq
      simp only [Option.some.injEq, Prod.mk.injEq] at heq
      obtain ⟨h1, h2, h3⟩ := heq
      subst h2
      simp [← h1, hd]
    · rw [if_neg hd] at heq
      by_cases hr : s < 0 ∨ s > m.mdef.max_state
      · rw [if_pos hr] at heq
        simp only [Option.some.injEq, Prod.mk.injEq] at heq
        obtain ⟨h1, h2, h3⟩ := heq
        subst h2
        rcases hr with hr | hr <;> simp [← h1, hr]
      · rw [if_neg hr] at heq
        rw [hcur] at heq
        dsimp only at heq
        have hdone : ∀ rc0 : Int, rc0 = 0 →
            rc0 = rc → (rc = -1 ↔ (m.dead = true ∨ s < 0 ∨ s > m.mdef.max_state)) := by
          intro rc0 h0 hrc
          constructor
          · intro hneg; omega
          · intro hcase
            rcases hcase with hc | hc | hc
            · exact absurd hc hd
            · exact absurd (Or.inl hc) hr
            · exact absurd (Or.inr hc) hr
        rcases hsd : (m.inst c).sdef with _ | curDef <;> rw [hsd] at heq
        · exact Option.noConfusion heq
        · dsimp only at heq
          by_cases hself : curDef.number = s
          · rw [if_pos hself] at heq
            simp only [Option.some.injEq, Prod.mk.injEq] at heq
            exact hdone 0 rfl heq.1
          · rw [if_neg hself] at heq
            by_cases hih : m.in_handler ≠ none
            · rw [if_pos hih] at heq
              exact Option.noConfusion heq
            · rw [if_neg hih] at heq
              by_cases hp : m.paused ≠ 0
              · rw [if_pos hp] at heq
                by_cases hdf : m.deferred ≠ 0
                · rw [if_pos hdf] at heq
                  exact Option.noConfusion heq
                · rw [if_neg hdf] at heq
                  simp only [Option.some.injEq, Prod.mk.injEq] at heq
                  exact hdone 0 rfl heq.1
              · rw [if_neg hp] at heq
                rcases hst : state_transition m s Handler.transition with _ | p <;>
                  rw [hst] at heq
                · exact Option.noConfusion heq
                · simp only [Option.map_some', Option.some.injEq,
                    Prod.mk.injEq] at heq
                  exact hdone 0 rfl heq.1

/-- Witness for C3 at concrete inputs: a dead machine fails with the machine
unchanged, and an in-range transition on a live machine does not report -1. -/
theorem C3_transition_failure_witness :
    fr_machine_transition { exM with dead := true } 3 =
      some (-1, { exM with dead := true }, []) ∧
    ((-1 : Int) = -1 ↔ (({ exM with dead := true } : fr_machine_t).dead = true ∨
      (3 : Int) < 0 ∨ (3 : Int) > ({ exM with dead := true } : fr_machine_t).mdef.max_state)) ∧
    ((0 : Int) = -1 ↔ (exM.dead = true ∨ (3 : Int) < 0 ∨ (3 : Int) > exM.mdef.max_state)) := by
  refine ⟨?_, ?_, ?_⟩
  · exact (C3_transition_failure { exM with dead := true } 3 2 rfl).1 (Or.inl rfl)
  · exact (C3_transition_failure { exM with dead := true } 3 2 rfl).2 (-1)
      { exM with dead := true } [] (by decide)
  · exact (C3_transition_failure exM 3 2 rfl).2 0 exM3 exEvs3 (by decide)

/-- C6: a self-transition (target equal to the current state's number, in
range, machine live) is a no-op success: return code 0, no event (hence no
hook and no enter/exit callback), and the machine — current state, deferred
slot, pause depth, death flag and all hook lists — returned unchanged. -/
theorem C6_self_transition (m : fr_machine_t) (s : Int) (c : Nat)
    (curDef : StateDef)
    (hdead : m.dead = false) (hcur : m.current = some c)
    (hcd : (m.inst c).sdef = some curDef)
    (hlo : 0 ≤ s) (hhi : s ≤ m.mdef.max_state)
    (hself : curDef.number = s) :
    fr_machine_transition m s = some (0, m, []) := by
  have hr : ¬(s < 0 ∨ s > m.mdef.max_state) := by omega
  simp [fr_machine_transition, hdead, hr, hcur, hcd, hself]

/-- Witness for C6: self-transition of the example machine to its current
state 2. -/
theorem C6_self_transition_witness :
    fr_machine_transition exM 2 = some (0, exM, []) :=
  C6_self_transition exM 2 2 sdActive rfl rfl rfl (by decide) (by decide) rfl


/-- C2: under its preconditions (machine live, nothing deferred, pause depth
zero) `fr_machine_process` runs the process-pre hooks, the process callback
and the process-post hooks of the current state under the reentrancy guard,
and then: a result of 0 returns "unchanged" (0) with no transition; a result
equal to the free state only sets `dead := true` and returns the error class
-1, with no exit/enter hook or callback event and no state change; any other
result `s` is handed to `fr_machine_transition` and `s` is returned. -/
theorem C2_process_outcomes (m : fr_machine_t) (c : Nat) (curDef : StateDef)
    (hcur : m.current = some c) (hcd : (m.inst c).sdef = some curDef)
    (hdead : m.dead = false) (hdf : m.deferred = 0) (hp : m.paused = 0) :
    (curDef.process = 0 →
      fr_machine_process m =
        some (0, processPhaseMachine m c, processPhaseEvs m c curDef.number)) ∧
    (curDef.process ≠ 0 → curDef.process = m.mdef.free →
      fr_machine_process m =
        some (-1, { processPhaseMachine m c with dead := true },
          processPhaseEvs m c curDef.number)) ∧
    (curDef.process ≠ 0 → curDef.process ≠ m.mdef.free →
      fr_machine_process m =
        (fr_machine_transition (processPhaseMachine m c) curDef.process).map
          (fun p => (curDef.process, p.2.1,
            processPhaseEvs m c curDef.number ++ p.2.2))) := by
  have hguard : ¬(m.deferred ≠ 0 ∨ m.dead = true ∨ m.paused ≠ 0) := by
    simp [hdf, hdead, hp]
  refine ⟨?_, ?_, ?_⟩
  · intro h0
    simp only [fr_machine_process, hcur]
    rw [if_neg hguard]
    simp only [hcd, h0]
    simp [processPhaseMachine, processPhaseEvs, call_hook_fst, call_hook_snd,
      hcur, hcd]
  · intro h0 hfree
    simp only [fr_machine_process, hcur]
    rw [if_neg hguard]
    simp only [hcd]
    rw [if_neg h0, if_pos hfree]
    simp [processPhaseMachine, processPhaseEvs, call_hook_fst, call_hook_snd,
      hcur, hcd]
  · intro h0 hfree
    simp only [fr_machine_process, hcur]
    rw [if_neg hguard]
    simp only [hcd]
    rw [if_neg h0, if_neg hfree]
    simp [processPhaseMachine, processPhaseEvs, call_hook_fst, call_hook_snd,
      hcur, hcd]


/-- Witness for C2: all three outcomes at concrete machines — state 2 of
`exM` returns 0 (unchanged), the quit state requests the free state (dead is
set, -1 returned, no transition), and state 1 of `exM` returns 2 and
transitions. -/
theorem C2_process_outcomes_witness :
    fr_machine_process exM =
      some (0, processPhaseMachine exM 2, processPhaseEvs exM 2 sdActive.number) ∧
    fr_machine_process exMQ =
      some (-1, { processPhaseMachine exMQ 2 with dead := true },
        processPhaseEvs exMQ 2 sdQuit.number) ∧
    fr_machine_process exMIdle =
      (fr_machine_transition (processPhaseMachine exMIdle 1) sdIdle.process).map
        (fun p => (sdIdle.process, p.2.1,
          processPhaseEvs exMIdle 1 sdIdle.number ++ p.2.2)) :=
  ⟨(C2_process_outcomes exM 2 sdActive rfl rfl rfl rfl rfl).1 rfl,
   (C2_process_outcomes exMQ 2 sdQuit rfl rfl rfl rfl rfl).2.1 (by decide) rfl,
   (C2_process_outcomes exMIdle 1 sdIdle rfl rfl rfl rfl rfl).2.2 (by decide)
     (by decide)⟩

/-- C4: `pause` increments the pause depth and nests; a transition requested
while paused (with the deferred slot empty, as the contract requires) records
the target in the deferred slot and returns success with no state change and
no event; `resume` decrements the depth and, exactly when the depth reaches 0
with a target pending, clears the deferred slot and performs the deferred
transition (so N pauses need N resumes); at depth greater than 1 it performs
no transition even with a target pending; resuming an unpaused machine (whose
deferred slot is empty — no reachable unpaused machine has a pending
deferral) is a no-op. -/
theorem C4_pause_resume (m : fr_machine_t) :
    (m.dead = false → fr_machine_pause m = some { m with paused := m.paused + 1 }) ∧
    (∀ (s : Int) (c : Nat) (curDef : StateDef),
      m.dead = false → m.current = some c → (m.inst c).sdef = some curDef →
      ¬(s < 0 ∨ s > m.mdef.max_state) → curDef.number ≠ s →
      m.in_handler = none → m.paused ≠ 0 → m.deferred = 0 →
      fr_machine_transition m s = some (0, { m with deferred := s }, [])) ∧
    (m.dead = false → m.paused > 1 →
      fr_machine_resume m = some ({ m with paused := m.paused - 1 }, [])) ∧
    (m.dead = false → m.paused = 1 → m.deferred ≠ 0 →
      fr_machine_resume m =
        state_transition { m with paused := 0, deferred := 0 } m.deferred
          Handler.resume) ∧
    (m.dead = false → m.paused = 1 → m.deferred = 0 →
      fr_machine_resume m = some ({ m with paused := 0 }, [])) ∧
    (m.dead = false → m.paused = 0 → m.deferred = 0 →
      fr_machine_resume m = some (m, [])) := by
  refine ⟨?_, ?_, ?_, ?_, ?_, ?_⟩
  · intro hdead
    simp [fr_machine_pause, hdead]
  · intro s c curDef hdead hcur hcd hr hself hih hp hdf
    simp only [fr_machine_transition, hdead, Bool.false_eq_true, if_false,
      if_neg hr, hcur, hcd]
    rw [if_neg hself, if_neg (by simp [hih]), if_pos hp, if_neg (by simp [hdf])]
  · intro hdead hp
    obtain ⟨md, cur, ih, df, pz, dd, st⟩ := m
    simp only at hdead hp ⊢
    subst hdead
    have h1 : (pz : Int) > 0 := by omega
    have h2 : (pz : Int) - 1 > 0 := by omega
    simp [fr_machine_resume, h1, h2]
  · intro hdead hp hdf
    obtain ⟨md, cur, ih, df, pz, dd, st⟩ := m
    simp only at hdead hp hdf ⊢
    subst hdead; subst hp
    simp [fr_machine_resume, hdf]
  · intro hdead hp hdf
    obtain ⟨md, cur, ih, df, pz, dd, st⟩ := m
    simp only at hdead hp hdf ⊢
    subst hdead; subst hp; subst hdf
    simp [fr_machine_resume]
  · intro hdead hp hdf
    simp [fr_machine_resume, hdead, hp, hdf]

/-- Witness for C4 at concrete machines: pause from depth 0; deferral of
target 3 at depth 1; resume from depth 2; resume from depth 1 with target 3
pending; resume from depth 1 with nothing pending; resume while unpaused. -/
theorem C4_pause_resume_witness :
    fr_machine_pause exM = some { exM with paused := exM.paused + 1 } ∧
    fr_machine_transition { exM with paused := 1 } 3 =
      some (0, { { exM with paused := 1 } with deferred := 3 }, []) ∧
    fr_machine_resume { exM with paused := 2 } =
      some ({ { exM with paused := 2 } with
        paused := ({ exM with paused := 2 } : fr_machine_t).paused - 1 }, []) ∧
    fr_machine_resume { exM with paused := 1, deferred := 3 } =
      state_transition { { exM with paused := 1, deferred := 3 } with
        paused := 0, deferred := 0 } 3 Handler.resume ∧
    fr_machine_resume { exM with paused := 1 } =
      some ({ { exM with paused := 1 } with paused := 0 }, []) ∧
    fr_machine_resume exM = some (exM, []) :=
  ⟨(C4_pause_resume exM).1 rfl,
   (C4_pause_resume { exM with paused := 1 }).2.1 3 2 sdActive rfl rfl rfl
     (by decide) (by decide) rfl (by decide) rfl,
   (C4_pause_resume { exM with paused := 2 }).2.2.1 rfl (by decide),
   (C4_pause_resume { exM with paused := 1, deferred := 3 }).2.2.2.1 rfl rfl
     (by decide),
   (C4_pause_resume { exM with paused := 1 }).2.2.2.2.1 rfl rfl rfl,
   (C4_pause_resume exM).2.2.2.2.2 rfl rfl rfl⟩

/-- C5: the deferred slot is a single cell, so at most one deferred
transition exists at any instant; requesting a transition while paused with a
target already pending trips the contract-violation assertion
`fr_assert(!m->deferred)` — modelled from the specification as fatal, since
debug.h is outside this translation unit — so the engine never overwrites the
pending target with the new one. -/
theorem C5_second_deferral_rejected (m : fr_machine_t) (s : Int) (c : Nat)
    (curDef : StateDef)
    (hdead : m.dead = false) (hcur : m.current = some c)
    (hcd : (m.inst c).sdef = some curDef)
    (hr : ¬(s < 0 ∨ s > m.mdef.max_state)) (hself : curDef.number ≠ s)
    (hih : m.in_handler = none)
    (hp : m.paused ≠ 0) (hpend : m.deferred ≠ 0) :
    fr_machine_transition m s = none := by
  simp only [fr_machine_transition, hdead, Bool.false_eq_true, if_false,
    if_neg hr, hcur, hcd]
  rw [if_neg hself, if_neg (by simp [hih]), if_pos hp, if_pos hpend]

/-- Witness for C5: with target 3 already deferred, requesting target 1
aborts instead of overwriting the slot. -/
theorem C5_second_deferral_rejected_witness :
    fr_machine_transition { exM with paused := 1, deferred := 3 } 1 = none :=
  C5_second_deferral_rejected { exM with paused := 1, deferred := 3 } 1 2
    sdActive rfl rfl rfl (by decide) (by decide) rfl (by decide) (by decide)


/-- Counterexample for C7: with a deferred transition pending (target 1,
"idle") and a current state set (state 2, "active"), `fr_machine_state_name`
with argument 0 resolves through `current` and returns "active", not the
deferred target's name, contradicting the claim that 0 resolves to the
deferred target's name whenever a deferral is pending. -/
theorem C7_state_name_counterexample :
    exMDeferred.deferred = 1 ∧ exMDeferred.deferred ≠ 0 ∧
    (exMDeferred.mdef.state.getD 1 defaultStateDef).name = "idle" ∧
    fr_machine_state_name exMDeferred 0 = some "active" ∧
    fr_machine_state_name exMDeferred 0 ≠ some "idle" := by decide

/-- C7 (amended): an out-of-range state number yields the sentinel "???"; a
nonzero in-range number yields the definition's display name; argument 0
resolves to the current state's name whenever a current state with a
definition is set — even if a deferred transition is pending — to the
deferred target's name only when no state is current and a deferral is
pending, and to the sentinel otherwise. -/
theorem C7_state_name_amended (m : fr_machine_t) (s : Int) :
    (s < 0 ∨ s > m.mdef.max_state → fr_machine_state_name m s = some "???") ∧
    (0 < s → s ≤ m.mdef.max_state →
      fr_machine_state_name m s =
        some (m.mdef.state.getD s.toNat defaultStateDef).name) ∧
    (∀ (c : Nat) (curDef : StateDef),
      m.current = some c → (m.inst c).sdef = some curDef →
      0 ≤ m.mdef.max_state →
      fr_machine_state_name m 0 =
        some (m.mdef.state.getD curDef.number.toNat defaultStateDef).name) ∧
    (m.current = none → m.deferred ≠ 0 → 0 ≤ m.mdef.max_state →
      fr_machine_state_name m 0 =
        some (m.mdef.state.getD m.deferred.toNat defaultStateDef).name) ∧
    (m.current = none → m.deferred = 0 → 0 ≤ m.mdef.max_state →
      fr_machine_state_name m 0 = some "???") := by
  refine ⟨?_, ?_, ?_, ?_, ?_⟩
  · intro hr
    simp [fr_machine_state_name, hr]
  · intro h1 h2
    have hr : ¬(s < 0 ∨ s > m.mdef.max_state) := by omega
    have hz : s ≠ 0 := by omega
    simp [fr_machine_state_name, hr, hz]
  · intro c curDef hcur hcd hmax
    have hr : ¬m.mdef.max_state < 0 := by omega
    simp [fr_machine_state_name, hr, hcur, hcd]
  · intro hcur hdf hmax
    have hr : ¬m.mdef.max_state < 0 := by omega
    simp [fr_machine_state_name, hr, hcur, hdf]
  · intro hcur hdf hmax
    have hr : ¬m.mdef.max_state < 0 := by omega
    simp [fr_machine_state_name, hr, hcur, hdf]

/-- Witness for the amended C7 at concrete machines: out-of-range 5, in-range
2, resolution of 0 through the current state, through the deferred target
when nothing is current, and the sentinel when neither exists. -/
theorem C7_state_name_amended_witness :
    fr_machine_state_name exM 5 = some "???" ∧
    fr_machine_state_name exM 2 =
      some (exM.mdef.state.getD (2 : Int).toNat defaultStateDef).name ∧
    fr_machine_state_name exM 0 =
      some (exM.mdef.state.getD sdActive.number.toNat defaultStateDef).name ∧
    fr_machine_state_name { exM with current := none, paused := 1, deferred := 3 } 0 =
      some (({ exM with current := none, paused := 1, deferred := 3 } :
        fr_machine_t).mdef.state.getD
          ({ exM with current := none, paused := 1, deferred := 3 } :
            fr_machine_t).deferred.toNat defaultStateDef).name ∧
    fr_machine_state_name { exM with current := none } 0 = some "???" :=
  ⟨(C7_state_name_amended exM 5).1 (by decide),
   (C7_state_name_amended exM 2).2.1 (by decide) (by decide),
   (C7_state_name_amended exM 0).2.2.1 2 sdActive rfl rfl (by decide),
   (C7_state_name_amended { exM with current := none, paused := 1, deferred := 3 }
     0).2.2.2.1 rfl (by decide) (by decide),
   (C7_state_name_amended { exM with current := none } 0).2.2.2.2 rfl rfl
     (by decide)⟩

/-- Counterexample for C8: on a dead machine, `fr_machine_process` does not
fail cleanly — the C code has no failure-return path for it, only the
assertion `fr_assert(!m->dead)` (modelled as fatal, hence `none`), so the
claim that every non-release, non-query operation fails cleanly after death
is false; the same holds for hook registration, pause and resume. -/
theorem C8_dead_machine_counterexample :
    ({ exM with dead := true } : fr_machine_t).dead = true ∧
    fr_machine_process { exM with dead := true } = none ∧
    fr_machine_pause { exM with dead := true } = none := by decide

/-- C8 (amended): once dead, `fr_machine_transition` fails cleanly (-1, no
mutation); `fr_machine_process`, hook registration, pause and resume do not
return a failure result — they trip the dead-machine assertion; the queries
still succeed: `fr_machine_current` returns the current state's number, or 0
when no state is current, and `fr_machine_state_name` returns a name or the
sentinel. -/
theorem C8_dead_machine_amended (m : fr_machine_t) (hdead : m.dead = true) :
    (∀ s : Int, fr_machine_transition m s = some (-1, m, [])) ∧
    fr_machine_process m = none ∧
    fr_machine_pause m = none ∧
    fr_machine_resume m = none ∧
    (∀ (s : Int) (t : fr_machine_hook_type_t) (sn : Sense) (os : Bool)
      (id : Nat), fr_machine_hook m s t sn os id = none) ∧
    (m.current = none → fr_machine_current m = some 0) ∧
    (∀ (c : Nat) (d : StateDef), m.current = some c → (m.inst c).sdef = some d →
      fr_machine_current m = some d.number) ∧
    (∀ s : Int, s ≠ 0 → (fr_machine_state_name m s).isSome = true) ∧
    (∀ (c : Nat) (d : StateDef), m.current = some c → (m.inst c).sdef = some d →
      (fr_machine_state_name m 0).isSome = true) := by
  refine ⟨?_, ?_, ?_, ?_, ?_, ?_, ?_, ?_, ?_⟩
  · intro s
    simp [fr_machine_transition, hdead]
  · rcases hcur : m.current with _ | c
    · simp [fr_machine_process, hcur]
    · simp [fr_machine_process, hcur, hdead]
  · simp [fr_machine_pause, hdead]
  · simp [fr_machine_resume, hdead]
  · intro s t sn os id
    simp [fr_machine_hook, hdead]
  · intro hcur
    simp [fr_machine_current, hcur]
  · intro c d hcur hcd
    simp [fr_machine_current, hcur, hcd]
  · intro s hz
    by_cases hr : s < 0 ∨ s > m.mdef.max_state
    · simp [fr_machine_state_name, hr]
    · simp [fr_machine_state_name, hr, hz]
  · intro c d hcur hcd
    by_cases hneg : m.mdef.max_state < 0
    · simp [fr_machine_state_name, hneg]
    · simp [fr_machine_state_name, hneg, hcur, hcd]

/-- Witness for the amended C8 at the dead example machine. -/
theorem C8_dead_machine_amended_witness :
    fr_machine_transition { exM with dead := true } 1 =
      some (-1, { exM with dead := true }, []) ∧
    fr_machine_process { exM with dead := true } = none ∧
    fr_machine_resume { exM with dead := true } = none ∧
    fr_machine_hook { exM with dead := true } 2 fr_machine_hook_type_t.FR_MACHINE_ENTER
      Sense.pre false 7 = none ∧
    fr_machine_current { exM with dead := true } = some sdActive.number ∧
    (fr_machine_state_name { exM with dead := true } 0).isSome = true :=
  ⟨(C8_dead_machine_amended { exM with dead := true } rfl).1 1,
   (C8_dead_machine_amended { exM with dead := true } rfl).2.1,
   (C8_dead_machine_amended { exM with dead := true } rfl).2.2.2.1,
   (C8_dead_machine_amended { exM with dead := true } rfl).2.2.2.2.1 2
     fr_machine_hook_type_t.FR_MACHINE_ENTER Sense.pre false 7,
   (C8_dead_machine_amended { exM with dead := true } rfl).2.2.2.2.2.2.1 2
     sdActive rfl rfl,
   (C8_dead_machine_amended { exM with dead := true } rfl).2.2.2.2.2.2.2.2 2
     sdActive rfl rfl⟩

/-- Reading back the hook list just written by `setList`. -/
theorem getList_setList (st : StateInst) (t : fr_machine_hook_type_t)
    (sn : Sense) (l : List Hook)
    (ht : t ≠ fr_machine_hook_type_t.invalid) :
    (st.setList t sn l).getList t sn = l := by
  cases t with
  | invalid => exact absurd rfl ht
  | FR_MACHINE_ENTER => cases sn <;> rfl
  | FR_MACHINE_PROCESS => cases sn <;> rfl
  | FR_MACHINE_EXIT => cases sn <;> rfl

/-- Removing an id that occurs nowhere in a hook list leaves it unchanged. -/
theorem filter_fresh_id (l : List Hook) (id : Nat)
    (h : id ∉ l.map Hook.id) :
    l.filter (fun hk => hk.id ≠ id) = l := by
  apply List.filter_eq_self.mpr
  intro a ha
  simp only [ne_eq, decide_not, Bool.not_eq_eq_eq_not, Bool.not_true,
    decide_eq_false_iff_not]
  intro hEq
  exact h (List.mem_map.mpr ⟨a, ha, hEq⟩)

/-- What hook release leaves on the selected list: the list of the state's
instance with the handle's id filtered out. -/
theorem hook_free_getList (m' : fr_machine_t) (k : Nat)
    (t : fr_machine_hook_type_t) (sn : Sense) (id : Nat)
    (hk : k < m'.state.length)
    (ht : t ≠ fr_machine_hook_type_t.invalid) :
    ((_machine_hook_free m' k t sn id).inst k).getList t sn =
      ((m'.inst k).getList t sn).filter (fun hk2 => hk2.id ≠ id) := by
  simp only [_machine_hook_free, fr_machine_t.inst]
  rw [getD_set_self _ _ _ _ hk]
  exact getList_setList _ _ _ _ ht

/-- Counterexample for C9: registering a hook on a dead machine does not
return the claimed null/failure result — the C function's only guard for
death is the assertion `fr_assert(!m->dead)` (modelled as fatal per the
specification, hence `none`); there is no return path that yields NULL for a
dead machine. -/
theorem C9_hook_register_counterexample :
    fr_machine_hook { exM with dead := true } 2
      fr_machine_hook_type_t.FR_MACHINE_ENTER Sense.pre false 9 = none := by
  decide

/-- C9 (amended): on a live machine, hook registration appends the new hook
at the tail of the single list selected by (state, phase, sense) and returns
it as the handle; releasing the handle detaches it, restoring the selected
list when the hook's identity is fresh; an invalid phase selector returns
NULL with no hook list modified; a dead machine trips the fatal dead-machine
assertion instead of returning NULL. -/
theorem C9_hook_register_amended (m : fr_machine_t) (s : Int)
    (type : fr_machine_hook_type_t) (sense : Sense) (oneshot : Bool)
    (id : Nat) :
    (m.dead = false → type ≠ fr_machine_hook_type_t.invalid →
      fr_machine_hook m s type sense oneshot id =
        some (some id,
          { m with
              state := m.state.set s.toNat
                ((m.inst s.toNat).setList type sense
                  ((m.inst s.toNat).getList type sense ++ [⟨id, oneshot⟩])) })) ∧
    (m.dead = false → type ≠ fr_machine_hook_type_t.invalid →
      s.toNat < m.state.length →
      id ∉ ((m.inst s.toNat).getList type sense).map Hook.id →
      ((_machine_hook_free
          { m with
              state := m.state.set s.toNat
                ((m.inst s.toNat).setList type sense
                  ((m.inst s.toNat).getList type sense ++ [⟨id, oneshot⟩])) }
          s.toNat type sense id).inst s.toNat).getList type sense =
        (m.inst s.toNat).getList type sense) ∧
    (m.dead = false →
      fr_machine_hook m s fr_machine_hook_type_t.invalid sense oneshot id =
        some (none, m)) ∧
    (m.dead = true → fr_machine_hook m s type sense oneshot id = none) := by
  refine ⟨?_, ?_, ?_, ?_⟩
  · intro hdead htype
    cases type with
    | invalid => exact absurd rfl htype
    | FR_MACHINE_ENTER => simp [fr_machine_hook, hdead]
    | FR_MACHINE_PROCESS => simp [fr_machine_hook, hdead]
    | FR_MACHINE_EXIT => simp [fr_machine_hook, hdead]
  · intro hdead htype hlen hfresh
    have hinstReg :
        ({ m with
            state := m.state.set s.toNat
              ((m.inst s.toNat).setList type sense
                ((m.inst s.toNat).getList type sense ++ [⟨id, oneshot⟩])) } :
          fr_machine_t).inst s.toNat =
          (m.inst s.toNat).setList type sense
            ((m.inst s.toNat).getList type sense ++ [⟨id, oneshot⟩]) := by
      simp only [fr_machine_t.inst]
      exact getD_set_self _ _ _ _ hlen
    rw [hook_free_getList _ _ _ _ _ (by simpa using hlen) htype]
    rw [hinstReg]
    rw [getList_setList _ _ _ _ htype]
    rw [List.filter_append, filter_fresh_id _ _ hfresh]
    simp
  · intro hdead
    simp [fr_machine_hook, hdead]
  · intro hdead
    simp [fr_machine_hook, hdead]

/-- Witness for the amended C9: register hook 9 on the enter-pre list of
state 2 of the example machine, then release it; also the invalid-selector
and dead-machine outcomes. -/
theorem C9_hook_register_amended_witness :
    fr_machine_hook exM 2 fr_machine_hook_type_t.FR_MACHINE_ENTER Sense.pre
      false 9 =
      some (some 9,
        { exM with
            state := exM.state.set (2 : Int).toNat
              ((exM.inst (2 : Int).toNat).setList
                fr_machine_hook_type_t.FR_MACHINE_ENTER Sense.pre
                ((exM.inst (2 : Int).toNat).getList
                  fr_machine_hook_type_t.FR_MACHINE_ENTER Sense.pre
                  ++ [⟨9, false⟩])) }) ∧
    ((_machine_hook_free
        { exM with
            state := exM.state.set (2 : Int).toNat
              ((exM.inst (2 : Int).toNat).setList
                fr_machine_hook_type_t.FR_MACHINE_ENTER Sense.pre
                ((exM.inst (2 : Int).toNat).getList
                  fr_machine_hook_type_t.FR_MACHINE_ENTER Sense.pre
                  ++ [⟨9, false⟩])) }
        (2 : Int).toNat fr_machine_hook_type_t.FR_MACHINE_ENTER Sense.pre
        9).inst (2 : Int).toNat).getList
      fr_machine_hook_type_t.FR_MACHINE_ENTER Sense.pre =
      (exM.inst (2 : Int).toNat).getList
        fr_machine_hook_type_t.FR_MACHINE_ENTER Sense.pre ∧
    fr_machine_hook exM 2 fr_machine_hook_type_t.invalid Sense.pre false 9 =
      some (none, exM) ∧
    fr_machine_hook { exM with dead := true } 2
      fr_machine_hook_type_t.FR_MACHINE_EXIT Sense.post true 11 = none :=
  ⟨(C9_hook_register_amended exM 2 fr_machine_hook_type_t.FR_MACHINE_ENTER
      Sense.pre false 9).1 rfl (by decide),
   (C9_hook_register_amended exM 2 fr_machine_hook_type_t.FR_MACHINE_ENTER
      Sense.pre false 9).2.1 rfl (by decide) (by decide) (by decide),
   (C9_hook_register_amended exM 2 fr_machine_hook_type_t.invalid
      Sense.pre false 9).2.2.1 rfl,
   (C9_hook_register_amended { exM with dead := true } 2
      fr_machine_hook_type_t.FR_MACHINE_EXIT Sense.post true 11).2.2.2 rfl⟩

/-- C10: the bug at target 0.  The machine allocated from the example
definition is live and unpaused; target 0 passes `fr_machine_transition`'s
range check `0 <= 0 <= max_state` and is not the current state's number, yet
the allocation loop initialised only entries 1 .. max_state, so entry 0 of
the instance array carries a NULL definition and `state_transition`
dereferences it (`none`), contrary to the claim that every accepted target
refers to an initialised instance with a non-null definition.  The
surrounding conjuncts evaluate every premise of the claim at this input. -/
theorem C10_transition_to_zero_null_def :
    (fr_machine_alloc exDef).map (fun p => p.1) = some exM0 ∧
    exM0.dead = false ∧ exM0.paused = 0 ∧ exM0.in_handler = none ∧
    exM0.current = some 2 ∧ (exM0.inst 2).sdef = some sdActive ∧
    sdActive.number ≠ 0 ∧
    ¬((0 : Int) < 0 ∨ (0 : Int) > exM0.mdef.max_state) ∧
    (exM0.inst 1).sdef = some sdIdle ∧
    (exM0.inst 3).sdef = some sdDone ∧
    (exM0.inst 0).sdef = none ∧
    fr_machine_transition exM0 0 = none := by decide

end FrMachine
